import Mathlib

/-!
Shallow embedding of the `tasky` crate (yoshuawuyts/parallel-future),
src/lib.rs together with the earlier single-mode draft src/future.rs.

The crate wraps an asynchronous computation in a lazily dispatched
`JoinHandle`: a `Builder` (produced by `FutureExt::spawn` /
`FutureExt::spawn_local`) is converted to a `JoinHandle` by `IntoFuture`,
and the actual submission to the async-std executor happens on the first
`Future::poll` of the handle. Dropping the handle runs a `PinnedDrop` impl
that cancels the underlying `async_std::task::JoinHandle`.

The executor is modelled as the test double the spec's "Testable
properties" section describes: it records every pooled submission, every
same-context submission and every cancellation (by worker id), and has
flags making the submission operations fail, which models the `io::Result`
returned by `async_std::task::Builder::spawn` / `::local`. The wrapped
future (`Fut : Future`) is modelled as a countdown computation: the number
of `Poll::Pending` results its running task reports before it completes
with its value. Rust panics (the `.unwrap()` calls in the source) are
modelled as the `Except.error` channel of the stepped operations.
-/

namespace Tasky

/-- Execution-mode tag. The source distinguishes the modes with the sealed
phantom types `Local` and `NonLocal` (src/lib.rs lines 124-137); the
shallow embedding uses a runtime tag with the same two inhabitants. -/
inductive Kind where
  | Local : Kind
  | NonLocal : Kind
deriving DecidableEq, Repr

/-- The wrapped asynchronous computation (the `Fut : Future` type
parameter): the number of `Pending` polls its running task reports before
completing, and the value it completes with. -/
structure Computation (α : Type) where
  pendingPolls : Nat
  value : α
deriving DecidableEq, Repr

/-- Model of `async_std::task::Builder`: the only configuration the source
ever applies to it is the task name (`Builder::new()` starts unnamed,
`Builder::name` sets the label). -/
structure AsyncBuilder where
  taskName : Option String
deriving DecidableEq, Repr

/-- Model of `async_std::task::Builder::new()`. -/
def AsyncBuilder.new : AsyncBuilder := ⟨none⟩

/-- The crate's `Builder<Fut, K>` (src/lib.rs lines 139-146): the phantom
kind tag, the wrapped future, and the inner async-std builder. -/
structure Builder (α : Type) where
  kind : Kind
  future : Computation α
  builder : AsyncBuilder
deriving DecidableEq, Repr

/-- Model of `FutureExt::spawn` (src/lib.rs lines 100-110): builds a
`NonLocal` (pooled) builder around the future, with a fresh unnamed
async-std builder. -/
def Computation.spawn (f : Computation α) : Builder α :=
  ⟨Kind.NonLocal, f, AsyncBuilder.new⟩

/-- Model of `FutureExt::spawn_local` (src/lib.rs lines 112-119): builds a
`Local` (same-context) builder around the future. -/
def Computation.spawn_local (f : Computation α) : Builder α :=
  ⟨Kind.Local, f, AsyncBuilder.new⟩

/-- Model of `Builder::name` (src/lib.rs lines 148-154): forwards the label
to the inner async-std builder and returns the builder for chaining. -/
def Builder.name (b : Builder α) (s : String) : Builder α :=
  { b with builder := { b.builder with taskName := some s } }

/-- Model of `async_std::task::JoinHandle<Fut::Output>`: the opaque worker
handle the executor returns on submission. It carries a fresh id (used by
the executor log), the running computation, and the diagnostic task name
taken from the async-std builder at submission time. -/
structure WorkerHandle (α : Type) where
  id : Nat
  task : Computation α
  taskName : Option String
deriving DecidableEq, Repr

/-- Test double for the async-std executor, as prescribed by the spec's
"Testable properties" section: dispatch and cancel operations are recorded
in logs keyed by worker id, and the two fail flags model the error case of
the `io::Result` that `async_std::task::Builder::spawn` / `::local`
return. -/
structure Executor where
  nextId : Nat
  spawnFails : Bool
  localFails : Bool
  spawnLog : List Nat
  localLog : List Nat
  cancelLog : List Nat
deriving DecidableEq, Repr

/-- Fresh executor test double: no submissions, no cancellations, both
submission paths succeeding. -/
def Executor.mkFresh : Executor := ⟨0, false, false, [], [], []⟩

/-- Model of `async_std::task::Builder::spawn` (the pooled submission
path): returns `none` for the `io::Result` error case, otherwise a fresh
worker handle plus the executor with the submission logged. -/
def Executor.spawn (ex : Executor) (cfg : AsyncBuilder) (f : Computation α) :
    Option (WorkerHandle α × Executor) :=
  if ex.spawnFails then none
  else some (⟨ex.nextId, f, cfg.taskName⟩,
    { ex with nextId := ex.nextId + 1, spawnLog := ex.spawnLog ++ [ex.nextId] })

/-- Model of `async_std::task::Builder::local` (the same-context submission
path used by the `Local` poll impl). -/
def Executor.spawnLocal (ex : Executor) (cfg : AsyncBuilder) (f : Computation α) :
    Option (WorkerHandle α × Executor) :=
  if ex.localFails then none
  else some (⟨ex.nextId, f, cfg.taskName⟩,
    { ex with nextId := ex.nextId + 1, localLog := ex.localLog ++ [ex.nextId] })

/-- Rust `Poll`. -/
inductive Poll (α : Type) where
  | Pending : Poll α
  | Ready : α → Poll α
deriving DecidableEq, Repr

/-- Polling the worker handle (the inner `task::JoinHandle`'s `Future`
impl): the running computation reports `Pending` the configured number of
times before completing with its value. -/
def WorkerHandle.poll (w : WorkerHandle α) : Poll α × WorkerHandle α :=
  match w.task.pendingPolls with
  | 0 => (Poll.Ready w.task.value, w)
  | n + 1 => (Poll.Pending, { w with task := { w.task with pendingPolls := n } })

/-- Model of `task::JoinHandle::cancel` on the worker handle: the executor
records the cancellation request against the worker's id. -/
def WorkerHandle.cancel (w : WorkerHandle α) (ex : Executor) : Executor :=
  { ex with cancelLog := ex.cancelLog ++ [w.id] }

/-- Rust panics occurring in the source: `Option::unwrap` on `None` and
`Result::unwrap` on an `Err` (the submission failure). -/
inductive Panic where
  | unwrapNone : Panic
  | unwrapErr : Panic
deriving DecidableEq, Repr

/-- The crate's `JoinHandle<Fut, K>` (src/lib.rs lines 44-51; src/future.rs
lines 11-19): an optional not-yet-consumed builder and an optional worker
handle. -/
structure JoinHandle (α : Type) where
  builder : Option (Builder α)
  handle : Option (WorkerHandle α)
deriving DecidableEq, Repr

/-- Model of `IntoFuture for Builder` (src/lib.rs lines 156-187;
src/future.rs lines 79-94): wraps the builder, with no worker handle and no
executor interaction. Both `Local` and `NonLocal` impls build the same
value. -/
def Builder.into_future (b : Builder α) : JoinHandle α :=
  ⟨some b, none⟩

/-- Model of `Future::poll` for `JoinHandle` (src/lib.rs lines 60-86; the
`Kind` tag selects between the `Local` impl, which submits through
`builder.builder.local(..).unwrap()`, and the `NonLocal` impl, which
submits through `builder.builder.spawn(..).unwrap()`; src/future.rs lines
21-35 is the `NonLocal` branch only). On the first poll the builder is
taken out of its `Option` and the submission's worker handle replaces
`self.handle`; every poll then polls the worker handle, unwrapping the
`Option` around it. -/
def JoinHandle.poll (h : JoinHandle α) (ex : Executor) :
    Except Panic (Poll α × JoinHandle α × Executor) :=
  match h.builder with
  | some b =>
    match (match b.kind with
           | Kind.NonLocal => ex.spawn b.builder b.future
           | Kind.Local => ex.spawnLocal b.builder b.future) with
    | none => Except.error Panic.unwrapErr
    | some (w, ex') =>
      let r := w.poll
      Except.ok (r.1, ⟨none, some r.2⟩, ex')
  | none =>
    match h.handle with
    | none => Except.error Panic.unwrapNone
    | some w =>
      let r := w.poll
      Except.ok (r.1, ⟨none, some r.2⟩, ex)

/-- Model of `PinnedDrop for JoinHandle` (src/lib.rs lines 88-96;
src/future.rs lines 37-45): `this.handle.take().unwrap()` followed by
`handle.cancel()`. When the handle was never polled, `self.handle` is
`None` and the `unwrap` panics. -/
def JoinHandle.drop (h : JoinHandle α) (ex : Executor) : Except Panic Executor :=
  match h.handle with
  | none => Except.error Panic.unwrapNone
  | some w => Except.ok (w.cancel ex)

/-- Model of `JoinHandle::detach` (src/lib.rs lines 53-58):
`std::mem::forget(self)` consumes the handle without running its drop glue,
so the executor observes nothing. -/
def JoinHandle.detach (_h : JoinHandle α) (ex : Executor) : Executor := ex

/-- Drive the handle `n + 1` times: poll repeatedly, threading the handle
and the executor, stopping early on a panic. -/
def JoinHandle.drive : Nat → JoinHandle α → Executor →
    Except Panic (Poll α × JoinHandle α × Executor)
  | 0, h, ex => h.poll ex
  | n + 1, h, ex =>
    match h.poll ex with
    | Except.error p => Except.error p
    | Except.ok (_, h', ex') => JoinHandle.drive n h' ex'

/-- Erase the diagnostic label from a builder (used to state that naming is
inert: everything but the label is unchanged). -/
def Builder.stripName (b : Builder α) : Builder α :=
  { b with builder := AsyncBuilder.new }

/-- Erase the diagnostic label from a worker handle. -/
def WorkerHandle.stripName (w : WorkerHandle α) : WorkerHandle α :=
  { w with taskName := none }

/-- Erase the diagnostic labels from a task handle. -/
def JoinHandle.stripName (h : JoinHandle α) : JoinHandle α :=
  ⟨h.builder.map Builder.stripName, h.handle.map WorkerHandle.stripName⟩

/-- The spec's structural invariant on `JoinHandle`: exactly one of the
pending builder and the dispatched worker handle is populated. -/
def JoinHandle.exclusiveState (h : JoinHandle α) : Prop :=
  (h.builder.isSome = true ∧ h.handle = none) ∨
    (h.builder = none ∧ h.handle.isSome = true)

/-! Helper lemmas about polling and driving. -/

/-- Polling a worker handle preserves its id, its diagnostic name and the
value of its computation; only the pending-poll countdown changes. -/
theorem WorkerHandle.poll_preserves (w : WorkerHandle α) :
    (w.poll).2.id = w.id ∧ (w.poll).2.taskName = w.taskName ∧
      (w.poll).2.task.value = w.task.value := by
  unfold WorkerHandle.poll
  cases w.task.pendingPolls <;> simp

/-- Polling an already-dispatched handle (builder taken, worker handle
present) only polls the worker: the executor is untouched. -/
theorem JoinHandle.poll_dispatched (w : WorkerHandle α) (ex : Executor) :
    JoinHandle.poll ⟨none, some w⟩ ex =
      Except.ok ((w.poll).1, ⟨none, some (w.poll).2⟩, ex) := rfl

/-- Driving an already-dispatched handle any number of times leaves the
executor untouched, keeps the handle dispatched, and preserves the worker's
id, name and value. -/
theorem JoinHandle.drive_dispatched (n : Nat) (w : WorkerHandle α) (ex : Executor) :
    ∃ p w', JoinHandle.drive n ⟨none, some w⟩ ex = Except.ok (p, ⟨none, some w'⟩, ex) ∧
      w'.id = w.id ∧ w'.taskName = w.taskName ∧ w'.task.value = w.task.value := by
  induction n generalizing w with
  | zero => exact ⟨(w.poll).1, (w.poll).2, rfl, (w.poll_preserves).1,
      (w.poll_preserves).2.1, (w.poll_preserves).2.2⟩
  | succ n ih =>
    obtain ⟨p, w', hdr, hid, hnm, hv⟩ := ih (w.poll).2
    exact ⟨p, w', by simpa [JoinHandle.drive, JoinHandle.poll_dispatched] using hdr,
      hid.trans (w.poll_preserves).1, hnm.trans (w.poll_preserves).2.1,
      hv.trans (w.poll_preserves).2.2⟩

/-- First poll of a fresh `NonLocal` handle with a non-failing pooled path:
the builder is consumed, the computation is submitted to the pooled path
(logged under the fresh worker id), and the new worker handle is polled
once. -/
theorem JoinHandle.poll_fresh_nonlocal (b : Builder α) (ex : Executor)
    (hk : b.kind = Kind.NonLocal) (hs : ex.spawnFails = false) :
    JoinHandle.poll b.into_future ex =
      Except.ok (((⟨ex.nextId, b.future, b.builder.taskName⟩ : WorkerHandle α).poll).1,
        ⟨none, some ((⟨ex.nextId, b.future, b.builder.taskName⟩ : WorkerHandle α).poll).2⟩,
        { ex with nextId := ex.nextId + 1, spawnLog := ex.spawnLog ++ [ex.nextId] }) := by
  simp [JoinHandle.poll, Builder.into_future, Executor.spawn, hk, hs]

/-- First poll of a fresh `Local` handle with a non-failing same-context
path. -/
theorem JoinHandle.poll_fresh_local (b : Builder α) (ex : Executor)
    (hk : b.kind = Kind.Local) (hl : ex.localFails = false) :
    JoinHandle.poll b.into_future ex =
      Except.ok (((⟨ex.nextId, b.future, b.builder.taskName⟩ : WorkerHandle α).poll).1,
        ⟨none, some ((⟨ex.nextId, b.future, b.builder.taskName⟩ : WorkerHandle α).poll).2⟩,
        { ex with nextId := ex.nextId + 1, localLog := ex.localLog ++ [ex.nextId] }) := by
  simp [JoinHandle.poll, Builder.into_future, Executor.spawnLocal, hk, hl]

/-- Driving a freshly converted handle any positive number of times: the
builder is consumed on the first poll, exactly one submission happens (on
the path selected by the builder's kind, logged under the worker id
`ex.nextId`), the resulting handle is dispatched with a worker carrying
that id and the builder's name and value, and no cancellation occurs. -/
theorem JoinHandle.drive_fresh (b : Builder α) (n : Nat) (ex : Executor)
    (hs : ex.spawnFails = false) (hl : ex.localFails = false) :
    ∃ p w ex', JoinHandle.drive n b.into_future ex = Except.ok (p, ⟨none, some w⟩, ex') ∧
      w.id = ex.nextId ∧ w.taskName = b.builder.taskName ∧
      w.task.value = b.future.value ∧
      ex'.nextId = ex.nextId + 1 ∧ ex'.cancelLog = ex.cancelLog ∧
      ex'.spawnFails = ex.spawnFails ∧ ex'.localFails = ex.localFails ∧
      ((b.kind = Kind.NonLocal ∧ ex'.spawnLog = ex.spawnLog ++ [ex.nextId] ∧
          ex'.localLog = ex.localLog) ∨
        (b.kind = Kind.Local ∧ ex'.localLog = ex.localLog ++ [ex.nextId] ∧
          ex'.spawnLog = ex.spawnLog)) := by
  have hfresh : ∀ exd : Executor,
      JoinHandle.poll b.into_future ex =
        Except.ok (((⟨ex.nextId, b.future, b.builder.taskName⟩ : WorkerHandle α).poll).1,
          ⟨none, some ((⟨ex.nextId, b.future, b.builder.taskName⟩ : WorkerHandle α).poll).2⟩,
          exd) →
      ∃ p w ex', JoinHandle.drive n b.into_future ex = Except.ok (p, ⟨none, some w⟩, ex') ∧
        w.id = ex.nextId ∧ w.taskName = b.builder.taskName ∧
        w.task.value = b.future.value ∧ ex' = exd := by
    intro exd hpoll
    set w0 : WorkerHandle α := ⟨ex.nextId, b.future, b.builder.taskName⟩ with hw0
    cases n with
    | zero =>
      refine ⟨(w0.poll).1, (w0.poll).2, exd, hpoll, ?_, ?_, ?_, rfl⟩
      · exact (w0.poll_preserves).1
      · exact (w0.poll_preserves).2.1
      · exact (w0.poll_preserves).2.2
    | succ m =>
      obtain ⟨p, w', hdr, hid, hnm, hv⟩ := JoinHandle.drive_dispatched m (w0.poll).2 exd
      refine ⟨p, w', exd, ?_, ?_, ?_, ?_, rfl⟩
      · simpa [JoinHandle.drive, hpoll] using hdr
      · exact hid.trans (w0.poll_preserves).1
      · exact hnm.trans (w0.poll_preserves).2.1
      · exact hv.trans (w0.poll_preserves).2.2
  cases hk : b.kind with
  | NonLocal =>
    obtain ⟨p, w, ex', hdr, hid, hnm, hv, hex⟩ :=
      hfresh _ (JoinHandle.poll_fresh_nonlocal b ex hk hs)
    exact ⟨p, w, ex', hdr, hid, hnm, hv, by simp [hex], by simp [hex],
      by simp [hex, hs], by simp [hex, hl], Or.inl ⟨rfl, by simp [hex], by simp [hex]⟩⟩
  | Local =>
    obtain ⟨p, w, ex', hdr, hid, hnm, hv, hex⟩ :=
      hfresh _ (JoinHandle.poll_fresh_local b ex hk hl)
    exact ⟨p, w, ex', hdr, hid, hnm, hv, by simp [hex], by simp [hex],
      by simp [hex, hs], by simp [hex, hl], Or.inr ⟨rfl, by simp [hex], by simp [hex]⟩⟩

/-- Polling commutes with erasing the diagnostic labels on the handle: the
poll outcome and the executor are unchanged, and the successor handle is
the stripped successor. -/
theorem JoinHandle.poll_stripName (h : JoinHandle α) (ex : Executor) :
    (h.stripName).poll ex =
      (h.poll ex).map (fun x => (x.1, JoinHandle.stripName x.2.1, x.2.2)) := by
  obtain ⟨ob, oh⟩ := h
  cases ob with
  | some b =>
    obtain ⟨k, ⟨pp, v⟩, nm⟩ := b
    show JoinHandle.poll ⟨some ⟨k, ⟨pp, v⟩, AsyncBuilder.new⟩,
      Option.map WorkerHandle.stripName oh⟩ ex = _
    cases k with
    | NonLocal =>
      cases hsf : ex.spawnFails <;> cases pp <;>
        simp [JoinHandle.poll, Executor.spawn, hsf, Except.map, AsyncBuilder.new,
          WorkerHandle.poll, JoinHandle.stripName, WorkerHandle.stripName]
    | Local =>
      cases hsf : ex.localFails <;> cases pp <;>
        simp [JoinHandle.poll, Executor.spawnLocal, hsf, Except.map, AsyncBuilder.new,
          WorkerHandle.poll, JoinHandle.stripName, WorkerHandle.stripName]
  | none =>
    cases oh with
    | none => rfl
    | some w =>
      obtain ⟨i, ⟨pp, v⟩, nm⟩ := w
      cases pp <;>
        simp [JoinHandle.stripName, JoinHandle.poll, Except.map,
          WorkerHandle.poll, WorkerHandle.stripName]

/-- Driving commutes with erasing the diagnostic labels on the handle. -/
theorem JoinHandle.drive_stripName (n : Nat) (h : JoinHandle α) (ex : Executor) :
    JoinHandle.drive n h.stripName ex =
      (JoinHandle.drive n h ex).map (fun x => (x.1, JoinHandle.stripName x.2.1, x.2.2)) := by
  induction n generalizing h ex with
  | zero => exact JoinHandle.poll_stripName h ex
  | succ n ih =>
    simp only [JoinHandle.drive, JoinHandle.poll_stripName h ex]
    cases hp : h.poll ex with
    | error p => simp [Except.map]
    | ok x => simp [Except.map, ih]

/-- Dropping a handle ignores the diagnostic labels: the cancellation is
recorded against the worker id only. -/
theorem JoinHandle.drop_stripName (h : JoinHandle α) (ex : Executor) :
    (h.stripName).drop ex = h.drop ex := by
  obtain ⟨ob, oh⟩ := h
  cases oh <;>
    simp [JoinHandle.stripName, JoinHandle.drop, WorkerHandle.cancel, WorkerHandle.stripName]

/-- Naming a builder changes nothing about the handle it converts to except
the diagnostic labels. -/
theorem into_future_name_stripName (b : Builder α) (s : String) :
    ((b.name s).into_future).stripName = (b.into_future).stripName := by
  simp [Builder.into_future, JoinHandle.stripName, Builder.name, Builder.stripName]

/-- Every successful poll leaves the handle in the Dispatched shape: the
builder slot empty and a worker handle present. -/
theorem JoinHandle.poll_ok_shape (h : JoinHandle α) (ex : Executor) (p : Poll α)
    (h' : JoinHandle α) (ex' : Executor)
    (hp : h.poll ex = Except.ok (p, h', ex')) :
    ∃ w, h' = ⟨none, some w⟩ := by
  obtain ⟨ob, oh⟩ := h
  cases ob with
  | some b =>
    simp only [JoinHandle.poll] at hp
    split at hp
    · exact Except.noConfusion hp
    · injection hp with h1
      injection h1 with ha hbc
      injection hbc with hb hc
      exact ⟨_, hb.symm⟩
  | none =>
    cases oh with
    | none => exact Except.noConfusion hp
    | some w =>
      simp only [JoinHandle.poll] at hp
      injection hp with h1
      injection h1 with ha hbc
      injection hbc with hb hc
      exact ⟨_, hb.symm⟩

/-- Driving a dispatched handle whose worker still reports `Pending` `k`
times completes with the worker's value after `k + 1` further polls, with
the executor untouched. -/
theorem JoinHandle.drive_dispatched_ready (k : Nat) (w : WorkerHandle α) (ex : Executor)
    (hk : w.task.pendingPolls = k) :
    ∃ w', JoinHandle.drive k ⟨none, some w⟩ ex =
      Except.ok (Poll.Ready w.task.value, ⟨none, some w'⟩, ex) := by
  induction k generalizing w with
  | zero =>
    refine ⟨w, ?_⟩
    show JoinHandle.poll ⟨none, some w⟩ ex = _
    rw [JoinHandle.poll_dispatched]
    simp [WorkerHandle.poll, hk]
  | succ k ih =>
    have hw : w.poll = (Poll.Pending, { w with task := { w.task with pendingPolls := k } }) := by
      simp [WorkerHandle.poll, hk]
    obtain ⟨w', hdr⟩ := ih { w with task := { w.task with pendingPolls := k } } rfl
    refine ⟨w', ?_⟩
    simp only [JoinHandle.drive, JoinHandle.poll_dispatched, hw]
    exact hdr

/-! Claim theorems. -/

/-- C1: a handle still in the Pending state (freshly converted from the
builder by `into_future`, never polled) holds no worker handle, so its drop
glue indeed performs no submission and no cancellation, but it is not the
clean discard the claim states: `this.handle.take().unwrap()` in the
`PinnedDrop` impl unwraps `None` and panics. Evaluating the drop at any
Pending handle yields the `unwrap`-on-`None` panic. -/
theorem c1_pending_drop_panics (b : Builder α) (ex : Executor) :
    JoinHandle.drop b.into_future ex = Except.error Panic.unwrapNone := rfl

/-- C2: driving a freshly converted handle `n + 1` times (any positive
number of polls) dispatches exactly once. The submission logs of the
executor test double grow by exactly one entry in total, and the builder is
consumed on the first poll: the resulting handle holds only the worker
handle. -/
theorem c2_single_dispatch (b : Builder α) (n : Nat) (ex : Executor)
    (hs : ex.spawnFails = false) (hl : ex.localFails = false) :
    ∃ p w ex', JoinHandle.drive n b.into_future ex = Except.ok (p, ⟨none, some w⟩, ex') ∧
      ex'.spawnLog.length + ex'.localLog.length =
        ex.spawnLog.length + ex.localLog.length + 1 := by
  obtain ⟨p, w, ex', hdr, _, _, _, _, _, _, _, hlog⟩ := JoinHandle.drive_fresh b n ex hs hl
  refine ⟨p, w, ex', hdr, ?_⟩
  rcases hlog with ⟨_, h1, h2⟩ | ⟨_, h1, h2⟩ <;> simp [h1, h2] <;> omega

/-- Witness for C2 at a concrete input: four polls of a pooled task with
two pending rounds dispatch exactly once. -/
theorem c2_single_dispatch_witness :
    ∃ p w ex', JoinHandle.drive 3
        (Computation.spawn (⟨2, 7⟩ : Computation Nat)).into_future Executor.mkFresh =
        Except.ok (p, ⟨none, some w⟩, ex') ∧
      ex'.spawnLog.length + ex'.localLog.length =
        Executor.mkFresh.spawnLog.length + Executor.mkFresh.localLog.length + 1 :=
  c2_single_dispatch (Computation.spawn ⟨2, 7⟩) 3 Executor.mkFresh rfl rfl

/-- C3: converting the builder into a handle performs no submission and the
computation does not start: `into_future` produces the Pending handle whose
builder slot still owns the computation and whose worker-handle slot is
empty, so no running task exists. The conversion takes no executor at all;
submissions only ever happen inside `poll`. -/
theorem c3_laziness (b : Builder α) :
    b.into_future.builder = some b ∧ b.into_future.handle = none :=
  ⟨rfl, rfl⟩

/-- C4: a handle driven at least once (so the builder was consumed and a
worker handle with id `ex.nextId` was obtained from the submission) and not
yet completed, when dropped, invokes the executor's cancel operation
exactly once, on exactly that worker id. -/
theorem c4_cancel_on_drop (b : Builder α) (n : Nat) (ex : Executor)
    (hs : ex.spawnFails = false) (hl : ex.localFails = false)
    (p : Poll α) (h' : JoinHandle α) (ex' : Executor)
    (hdr : JoinHandle.drive n b.into_future ex = Except.ok (p, h', ex'))
    (_hpend : p = Poll.Pending) :
    JoinHandle.drop h' ex' =
      Except.ok { ex' with cancelLog := ex'.cancelLog ++ [ex.nextId] } := by
  obtain ⟨p₂, w, ex₂, hdr₂, hid, _⟩ := JoinHandle.drive_fresh b n ex hs hl
  rw [hdr] at hdr₂
  injection hdr₂ with h1
  injection h1 with ha hbc
  injection hbc with hb hc
  subst hb hc
  simp [JoinHandle.drop, WorkerHandle.cancel, hid]

/-- Witness for C4 at a concrete input: one poll of a pooled task with two
pending rounds, then a drop, cancels exactly worker 0. -/
theorem c4_cancel_on_drop_witness :
    JoinHandle.drop (⟨none, some ⟨0, ⟨1, 7⟩, none⟩⟩ : JoinHandle Nat)
        ⟨1, false, false, [0], [], []⟩ =
      Except.ok ⟨1, false, false, [0], [], [0]⟩ :=
  c4_cancel_on_drop (Computation.spawn ⟨2, 7⟩) 0 Executor.mkFresh rfl rfl
    Poll.Pending ⟨none, some ⟨0, ⟨1, 7⟩, none⟩⟩ ⟨1, false, false, [0], [], []⟩ rfl rfl

/-- C5: result fidelity. Driving the handle built from a computation to
completion (the first poll dispatches and polls the worker once; one more
poll per remaining pending round) yields exactly the computation's value,
unmodified. -/
theorem c5_result_fidelity (b : Builder α) (ex : Executor)
    (hs : ex.spawnFails = false) (hl : ex.localFails = false) :
    ∃ h' ex', JoinHandle.drive b.future.pendingPolls b.into_future ex =
      Except.ok (Poll.Ready b.future.value, h', ex') := by
  have hpoll : ∃ ex', JoinHandle.poll b.into_future ex =
      Except.ok (((⟨ex.nextId, b.future, b.builder.taskName⟩ : WorkerHandle α).poll).1,
        ⟨none, some ((⟨ex.nextId, b.future, b.builder.taskName⟩ : WorkerHandle α).poll).2⟩,
        ex') := by
    cases hk : b.kind with
    | NonLocal => exact ⟨_, JoinHandle.poll_fresh_nonlocal b ex hk hs⟩
    | Local => exact ⟨_, JoinHandle.poll_fresh_local b ex hk hl⟩
  obtain ⟨ex', hpoll⟩ := hpoll
  cases hfp : b.future.pendingPolls with
  | zero =>
    have hwp : (⟨ex.nextId, b.future, b.builder.taskName⟩ : WorkerHandle α).poll =
        (Poll.Ready b.future.value, ⟨ex.nextId, b.future, b.builder.taskName⟩) := by
      simp [WorkerHandle.poll, hfp]
    exact ⟨⟨none, some ⟨ex.nextId, b.future, b.builder.taskName⟩⟩, ex',
      by rw [hwp] at hpoll; exact hpoll⟩
  | succ k =>
    have hwp : (⟨ex.nextId, b.future, b.builder.taskName⟩ : WorkerHandle α).poll =
        (Poll.Pending, ⟨ex.nextId, { b.future with pendingPolls := k },
          b.builder.taskName⟩) := by
      simp [WorkerHandle.poll, hfp]
    obtain ⟨w', hdr⟩ := JoinHandle.drive_dispatched_ready k
      ⟨ex.nextId, { b.future with pendingPolls := k }, b.builder.taskName⟩ ex' rfl
    refine ⟨⟨none, some w'⟩, ex', ?_⟩
    rw [hwp] at hpoll
    simp only [JoinHandle.drive, hpoll]
    exact hdr

/-- Witness for C5: the spec's end-to-end example. Spawning the computation
returning "nori is a horse", naming the task "meow" and driving the handle
to completion yields "nori is a horse". -/
theorem c5_result_fidelity_witness :
    ∃ h' ex', JoinHandle.drive 0
        (((Computation.mk 0 "nori is a horse").spawn.name "meow").into_future)
        Executor.mkFresh =
      Except.ok (Poll.Ready "nori is a horse", h', ex') :=
  c5_result_fidelity ((Computation.mk 0 "nori is a horse").spawn.name "meow")
    Executor.mkFresh rfl rfl

/-- C6: after construction exactly one of the builder slot and the
worker-handle slot is populated, and every successful poll leaves the
handle in the Dispatched shape (builder slot empty, worker handle present).
In particular the invariant is preserved by every poll, and once a worker
handle is populated no poll ever reverts the handle to holding a
builder. -/
theorem c6_state_invariant (b : Builder α) :
    (b.into_future).exclusiveState ∧
      ∀ (h : JoinHandle α) (ex : Executor) (p : Poll α) (h' : JoinHandle α) (ex' : Executor),
        JoinHandle.poll h ex = Except.ok (p, h', ex') →
        h'.builder = none ∧ h'.handle.isSome = true := by
  refine ⟨Or.inl ⟨rfl, rfl⟩, ?_⟩
  intro h ex p h' ex' hp
  obtain ⟨w, hw⟩ := JoinHandle.poll_ok_shape h ex p h' ex' hp
  subst hw
  exact ⟨rfl, rfl⟩

/-- Witness for C6 at a concrete input: the fresh handle satisfies the
exclusive-state invariant, and the concrete first poll of it yields a
handle with the builder slot empty and a worker handle present. -/
theorem c6_state_invariant_witness :
    ((Computation.spawn (⟨1, 5⟩ : Computation Nat)).into_future).exclusiveState ∧
      (⟨none, some ⟨0, ⟨0, 5⟩, none⟩⟩ : JoinHandle Nat).builder = none ∧
      (⟨none, some ⟨0, ⟨0, 5⟩, none⟩⟩ : JoinHandle Nat).handle.isSome = true :=
  ⟨(c6_state_invariant (Computation.spawn ⟨1, 5⟩)).1,
    (c6_state_invariant (Computation.spawn (⟨1, 5⟩ : Computation Nat))).2
      (Computation.spawn (⟨1, 5⟩ : Computation Nat)).into_future Executor.mkFresh
      Poll.Pending ⟨none, some ⟨0, ⟨0, 5⟩, none⟩⟩ ⟨1, false, false, [0], [], []⟩ rfl⟩

/-- C7: naming is inert. Attaching a name changes only the diagnostic
label: driving the named and the unnamed handle any number of times from
the same executor yields the same poll outcome and the same executor (so
the same dispatch logs); and dropping the two resulting handles produces
the same cancellation behavior. -/
theorem c7_naming_inert (b : Builder α) (s : String) (n : Nat) (ex : Executor) :
    (JoinHandle.drive n (b.name s).into_future ex).map (fun x => (x.1, x.2.2)) =
      (JoinHandle.drive n b.into_future ex).map (fun x => (x.1, x.2.2)) ∧
    ∀ (p₁ p₂ : Poll α) (h₁ h₂ : JoinHandle α) (ex₁ ex₂ : Executor),
      JoinHandle.drive n (b.name s).into_future ex = Except.ok (p₁, h₁, ex₁) →
      JoinHandle.drive n b.into_future ex = Except.ok (p₂, h₂, ex₂) →
      JoinHandle.drop h₁ ex₁ = JoinHandle.drop h₂ ex₂ := by
  have key : (JoinHandle.drive n (b.name s).into_future ex).map
        (fun x => (x.1, JoinHandle.stripName x.2.1, x.2.2)) =
      (JoinHandle.drive n b.into_future ex).map
        (fun x => (x.1, JoinHandle.stripName x.2.1, x.2.2)) := by
    rw [← JoinHandle.drive_stripName, ← JoinHandle.drive_stripName,
      into_future_name_stripName]
  constructor
  · cases h₁ : JoinHandle.drive n (b.name s).into_future ex with
    | error p =>
      cases h₂ : JoinHandle.drive n b.into_future ex with
      | error q =>
        rw [h₁, h₂] at key
        simp only [Except.map] at key ⊢
        injection key with hk
        rw [hk]
      | ok y =>
        rw [h₁, h₂] at key
        exact Except.noConfusion key
    | ok x =>
      cases h₂ : JoinHandle.drive n b.into_future ex with
      | error q =>
        rw [h₁, h₂] at key
        exact Except.noConfusion key
      | ok y =>
        rw [h₁, h₂] at key
        simp only [Except.map] at key ⊢
        injection key with hk
        injection hk with ha hbc
        injection hbc with hb hc
        rw [ha, hc]
  · intro p₁ p₂ h₁ h₂ ex₁ ex₂ hd₁ hd₂
    rw [hd₁, hd₂] at key
    simp only [Except.map] at key
    injection key with hk
    injection hk with ha hbc
    injection hbc with hb hc
    rw [← JoinHandle.drop_stripName h₁, ← JoinHandle.drop_stripName h₂, hb, hc]

/-- Witness for C7 at a concrete input: naming a pooled task "x" changes
neither the drive observables nor the drop behavior of the dispatched
handle. -/
theorem c7_naming_inert_witness :
    (JoinHandle.drive 0
        ((Computation.spawn (⟨0, 3⟩ : Computation Nat)).name "x").into_future
        Executor.mkFresh).map (fun x => (x.1, x.2.2)) =
      (JoinHandle.drive 0 (Computation.spawn (⟨0, 3⟩ : Computation Nat)).into_future
        Executor.mkFresh).map (fun x => (x.1, x.2.2)) ∧
    JoinHandle.drop (⟨none, some ⟨0, ⟨0, 3⟩, some "x"⟩⟩ : JoinHandle Nat)
        ⟨1, false, false, [0], [], []⟩ =
      JoinHandle.drop (⟨none, some ⟨0, ⟨0, 3⟩, none⟩⟩ : JoinHandle Nat)
        ⟨1, false, false, [0], [], []⟩ :=
  ⟨(c7_naming_inert (Computation.spawn ⟨0, 3⟩) "x" 0 Executor.mkFresh).1,
    (c7_naming_inert (Computation.spawn (⟨0, 3⟩ : Computation Nat)) "x" 0
        Executor.mkFresh).2
      (Poll.Ready 3) (Poll.Ready 3) ⟨none, some ⟨0, ⟨0, 3⟩, some "x"⟩⟩
      ⟨none, some ⟨0, ⟨0, 3⟩, none⟩⟩ ⟨1, false, false, [0], [], []⟩
      ⟨1, false, false, [0], [], []⟩ rfl rfl⟩

/-- C8: submission failure is fatal. When the submission operation fails on
the first drive (the error case of the `io::Result` that async-std's
builder returns), the source's `.unwrap()` turns it into a panic: the poll
ends in the panic channel, and no error value is returned through the
handle — the success channel of `poll` carries only `Poll α`, which has no
error constructor. -/
theorem c8_submit_failure_fatal (b : Builder α) (ex : Executor)
    (hs : ex.spawnFails = true) (hl : ex.localFails = true) :
    JoinHandle.poll b.into_future ex = Except.error Panic.unwrapErr := by
  cases hk : b.kind <;>
    simp [JoinHandle.poll, Builder.into_future, Executor.spawn, Executor.spawnLocal,
      hk, hs, hl]

/-- Witness for C8 at a concrete input: polling a fresh pooled handle on an
executor whose submission paths fail panics. -/
theorem c8_submit_failure_fatal_witness :
    JoinHandle.poll (Computation.spawn (⟨0, 1⟩ : Computation Nat)).into_future
      ⟨0, true, true, [], [], []⟩ = Except.error Panic.unwrapErr :=
  c8_submit_failure_fatal (Computation.spawn ⟨0, 1⟩) ⟨0, true, true, [], [], []⟩ rfl rfl

/-- C9: mode isolation. Driving a freshly converted handle submits on the
path selected by the builder's kind only: a `Local` (same-context) handle
is logged on the same-context path and never on the pooled path, and a
`NonLocal` (pooled) handle is logged on the pooled path and never on the
same-context path. -/
theorem c9_mode_isolation (b : Builder α) (n : Nat) (ex : Executor)
    (hs : ex.spawnFails = false) (hl : ex.localFails = false) :
    ∃ p h' ex', JoinHandle.drive n b.into_future ex = Except.ok (p, h', ex') ∧
      (b.kind = Kind.Local →
        ex'.spawnLog = ex.spawnLog ∧ ex'.localLog = ex.localLog ++ [ex.nextId]) ∧
      (b.kind = Kind.NonLocal →
        ex'.localLog = ex.localLog ∧ ex'.spawnLog = ex.spawnLog ++ [ex.nextId]) := by
  obtain ⟨p, w, ex', hdr, _, _, _, _, _, _, _, hlog⟩ := JoinHandle.drive_fresh b n ex hs hl
  refine ⟨p, ⟨none, some w⟩, ex', hdr, ?_, ?_⟩ <;> intro hk <;>
    rcases hlog with ⟨hk', h1, h2⟩ | ⟨hk', h1, h2⟩
  · rw [hk] at hk'; exact Kind.noConfusion hk'
  · exact ⟨h2, h1⟩
  · exact ⟨h2, h1⟩
  · rw [hk] at hk'; exact Kind.noConfusion hk'

/-- Witness for C9 at a concrete input: one poll of a same-context handle
logs the submission on the same-context path only. -/
theorem c9_mode_isolation_witness :
    ∃ p h' ex', JoinHandle.drive 0
        (Computation.spawn_local (⟨1, 9⟩ : Computation Nat)).into_future
        Executor.mkFresh = Except.ok (p, h', ex') ∧
      ((Computation.spawn_local (⟨1, 9⟩ : Computation Nat)).kind = Kind.Local →
        ex'.spawnLog = Executor.mkFresh.spawnLog ∧
        ex'.localLog = Executor.mkFresh.localLog ++ [Executor.mkFresh.nextId]) ∧
      ((Computation.spawn_local (⟨1, 9⟩ : Computation Nat)).kind = Kind.NonLocal →
        ex'.localLog = Executor.mkFresh.localLog ∧
        ex'.spawnLog = Executor.mkFresh.spawnLog ++ [Executor.mkFresh.nextId]) :=
  c9_mode_isolation (Computation.spawn_local ⟨1, 9⟩) 0 Executor.mkFresh rfl rfl

/-- C10: `detach` consumes the handle through `mem::forget`, so the drop
glue never runs: the executor is left exactly as it was, in particular the
cancel log is unchanged and the dispatched worker keeps running. By
contrast, dropping the same dispatched handle would record a cancellation
of its worker. -/
theorem c10_detach_skips_cancel (h : JoinHandle α) (w : WorkerHandle α) (ex : Executor)
    (hw : h.handle = some w) :
    h.detach ex = ex ∧ (h.detach ex).cancelLog = ex.cancelLog ∧
      JoinHandle.drop h ex =
        Except.ok { ex with cancelLog := ex.cancelLog ++ [w.id] } := by
  refine ⟨rfl, rfl, ?_⟩
  simp [JoinHandle.drop, hw, WorkerHandle.cancel]

/-- Witness for C10 at a concrete input: detaching a dispatched handle
leaves the executor untouched while dropping it would cancel worker 0. -/
theorem c10_detach_skips_cancel_witness :
    JoinHandle.detach (⟨none, some ⟨0, ⟨1, 4⟩, none⟩⟩ : JoinHandle Nat)
        ⟨1, false, false, [0], [], []⟩ = ⟨1, false, false, [0], [], []⟩ ∧
      (JoinHandle.detach (⟨none, some ⟨0, ⟨1, 4⟩, none⟩⟩ : JoinHandle Nat)
        ⟨1, false, false, [0], [], []⟩).cancelLog = [] ∧
      JoinHandle.drop (⟨none, some ⟨0, ⟨1, 4⟩, none⟩⟩ : JoinHandle Nat)
        ⟨1, false, false, [0], [], []⟩ =
        Except.ok ⟨1, false, false, [0], [], [0]⟩ :=
  c10_detach_skips_cancel ⟨none, some ⟨0, ⟨1, 4⟩, none⟩⟩ ⟨0, ⟨1, 4⟩, none⟩
    ⟨1, false, false, [0], [], []⟩ rfl

end Tasky
